import Mathlib

/-!
Verification development for the scabha cab/parameter core
(`src/scabha/validate.py` and `src/scabha/cargo.py`).

The Python code is shallowly embedded: dictionaries become association
lists in insertion order (Python 3.7+ dicts preserve insertion order),
Python values relevant to the code paths become the inductive `PValue`,
fallible code returns `Except`, and the external collaborators
(filesystem globbing, yaml parsing) are abstracted as an explicit
environment record, per the spec's "external interfaces" section.
-/

namespace Scabha

/-- Python `sep.join(values)` (`str.join`). -/
def pyJoin (sep : String) : List String → String
  | [] => ""
  | [x] => x
  | x :: y :: xs => x ++ sep ++ pyJoin sep (y :: xs)

/-- Python dict lookup `d.get(k)` for an insertion-ordered dict modelled
as an association list: the first binding of the key, if any. -/
def pyGet {α : Type} (d : List (String × α)) (k : String) : Option α :=
  (d.find? (fun p => p.1 == k)).map (fun p => p.2)

/-- Python dict assignment `d[k] = v`: replaces the value in place if the
key is present (keeping its position), else appends a new binding. -/
def pyUpdate {α : Type} : List (String × α) → String → α → List (String × α)
  | [], k, v => [(k, v)]
  | p :: t, k, v => if p.1 == k then (k, v) :: t else p :: pyUpdate t k v

/-- The Python values flowing through `validate_parameters` and
`build_argument_list`: `None`, bools, ints, strings, the `Error` marker
(a `str` subclass, validate.py:23), the `Unresolved` marker
(validate.py:26) and lists. -/
inductive PValue where
  | vnone
  | vbool (b : Bool)
  | vint (n : Int)
  | vstr (s : String)
  | verr (s : String)
  | vunres (s : String)
  | vlist (l : List PValue)

/-- Python type name of a `PValue`, as `type(v).__name__` would print. -/
def pyTypeName : PValue → String
  | .vnone => "NoneType"
  | .vbool _ => "bool"
  | .vint _ => "int"
  | .vstr _ => "str"
  | .verr _ => "Error"
  | .vunres _ => "Unresolved"
  | .vlist _ => "list"

mutual

/-- Python `repr(v)` for the values the code can print inside lists. -/
def pyRepr : PValue → String
  | .vnone => "None"
  | .vbool b => if b then "True" else "False"
  | .vint n => toString n
  | .vstr s => "\x27" ++ s ++ "\x27"
  | .verr s => "\x27" ++ s ++ "\x27"
  | .vunres s => "Unresolved(value=\x27" ++ s ++ "\x27)"
  | .vlist l => "[" ++ pyJoin ", " (pyReprList l) ++ "]"

def pyReprList : List PValue → List String
  | [] => []
  | v :: vs => pyRepr v :: pyReprList vs

end

/-- Python `str(v)`.  `Error` is a `str` subclass so it stringifies to its
own content; `Unresolved.__str__` is defined at validate.py:30. -/
def pyStr : PValue → String
  | .vnone => "None"
  | .vbool b => if b then "True" else "False"
  | .vint n => toString n
  | .vstr s => s
  | .verr s => s
  | .vunres s => "Unresolved(" ++ s ++ ")"
  | .vlist l => "[" ++ pyJoin ", " (pyReprList l) ++ "]"

mutual

/-- Python `==` between the values above.  `Error` is a `str` subclass so
it compares by content with plain strings; `bool` is an `int` subclass so
`True == 1`; `Unresolved` is a dataclass and compares by field. -/
def pyEq : PValue → PValue → Bool
  | .vnone, .vnone => true
  | .vstr a, .vstr b => a == b
  | .vstr a, .verr b => a == b
  | .verr a, .vstr b => a == b
  | .verr a, .verr b => a == b
  | .vbool a, .vbool b => a == b
  | .vbool a, .vint b => (if a then (1 : Int) else 0) == b
  | .vint a, .vbool b => a == (if b then (1 : Int) else 0)
  | .vint a, .vint b => a == b
  | .vunres a, .vunres b => a == b
  | .vlist a, .vlist b => pyEqList a b
  | _, _ => false

def pyEqList : List PValue → List PValue → Bool
  | [], [] => true
  | a :: as_, b :: bs => pyEq a b && pyEqList as_ bs
  | _, _ => false

end

/-- Python `value in values` for a list (membership by `==`). -/
def pyMem (v : PValue) (l : List PValue) : Bool :=
  l.any (fun c => pyEq v c)

/-- `type(value) is Unresolved` (validate.py:117-118). -/
def pvIsUnres : PValue → Bool
  | .vunres _ => true
  | _ => false

/-- `isinstance(value, Error)`. -/
def pvIsErr : PValue → Bool
  | .verr _ => true
  | _ => false

/-- Python `d.get(name) is None`: true when the key is absent or its
value is `None` (validate.py:123, 166, 175). -/
def pvOptIsNone : Option PValue → Bool
  | none => true
  | some .vnone => true
  | some _ => false

/-!
## The substitution namespace and `str.format`

`SubstitutionNamespace` (validate.py:51-78) is a dict whose nested dicts
are themselves namespaces; all namespaces the code builds have
`_forgiving_ = False`, so a missing attribute raises `AttributeError`.
`value.format(**subst1)` is Python's `str.format`; the interpreter below
supports the literal text, `\x7b\x7b`/`\x7d\x7d` escapes and dotted
replacement fields the code relies on.
-/

/-- A value inside the substitution namespace: either a leaf Python value
or a nested `SubstitutionNamespace`. -/
inductive NsVal where
  | leaf (v : PValue)
  | node (d : List (String × NsVal))

mutual

/-- Python `str()` of a namespace value (a nested namespace prints like a
dict). -/
def nsStr : NsVal → String
  | .leaf v => pyStr v
  | .node d => "\x7b" ++ pyJoin ", " (nsStrPairs d) ++ "\x7d"

def nsStrPairs : List (String × NsVal) → List String
  | [] => []
  | (k, v) :: rest => ("\x27" ++ k ++ "\x27: " ++ nsStr v) :: nsStrPairs rest

end

/-- Errors `str.format` can raise on lookup: `KeyError` for a missing
top-level keyword, `AttributeError` from `SubstitutionNamespace.__getattr__`
(validate.py:78) or from `getattr` on a non-namespace value, and
`ValueError`/`IndexError` for malformed templates.  The payload is what
`f"\x7bexc\x7d"` renders for that exception. -/
inductive FmtE where
  | keyErr (k : String)
  | attrErr (msg : String)
  | valueErr (msg : String)

/-- `f"\x7bexc\x7d"`: `str(KeyError(k))` is the repr of the key,
`str(AttributeError(m))` and `str(ValueError(m))` are the message. -/
def fmtErrMsg : FmtE → String
  | .keyErr k => "\x27" ++ k ++ "\x27"
  | .attrErr m => m
  | .valueErr m => m

/-- Attribute path walk for a dotted replacement field `\x7ba.b.c\x7d`:
`getattr` on a namespace looks the name up in the dict and raises
`AttributeError(name)` when missing (validate.py:72-78, strict mode);
`getattr` on a leaf raises the usual `AttributeError`. -/
def nsGetPath : NsVal → List String → Except FmtE NsVal
  | v, [] => .ok v
  | .node d, a :: rest =>
    match pyGet d a with
    | some v => nsGetPath v rest
    | none => .error (.attrErr a)
  | .leaf v, a :: _ =>
    .error (.attrErr ("\x27" ++ pyTypeName v ++
      "\x27 object has no attribute \x27" ++ a ++ "\x27"))

/-- Split a character list on a separator character (the semantics of
Python `"a.b.c".split(".")` for a one-character separator). -/
def splitOnChar (c : Char) : List Char → List (List Char)
  | [] => [[]]
  | x :: rest =>
    let r := splitOnChar c rest
    if x == c then [] :: r
    else
      match r with
      | s :: ss => (x :: s) :: ss
      | [] => [[x]]

/-- Decimal value of a digit run. -/
def digitsToNat (cs : List Char) : Nat :=
  cs.foldl (fun n c => n * 10 + (c.toNat - '0'.toNat)) 0

/-- Resolve one replacement field: a leading digit-run indexes the
positional arguments, otherwise the first segment is a keyword lookup;
the remaining dot-separated segments are attribute accesses. -/
def resolveField (posArgs : List PValue)
    (lookupTop : String → Except FmtE NsVal) (field : List Char) :
    Except FmtE NsVal :=
  match splitOnChar '.' field with
  | [] => .error (.valueErr "empty replacement field")
  | seg :: rest =>
    let top : Except FmtE NsVal :=
      if seg.isEmpty then
        -- auto-numbered field "\x7b\x7d": first positional argument
        match posArgs.head? with
        | some v => .ok (.leaf v)
        | none => .error (.valueErr "Replacement index 0 out of range for positional args tuple")
      else if seg.all Char.isDigit then
        match posArgs.get? (digitsToNat seg) with
        | some v => .ok (.leaf v)
        | none => .error (.valueErr ("Replacement index " ++ String.mk seg ++ " out of range for positional args tuple"))
      else lookupTop (String.mk seg)
    match top with
    | .error e => .error e
    | .ok t => nsGetPath t (rest.map String.mk)

mutual

/-- The interpreter for `s.format(*posArgs, **kwargs)`, over the
character list of `s`. -/
def fmtAux (posArgs : List PValue) (lookupTop : String → Except FmtE NsVal) :
    List Char → Except FmtE String
  | [] => .ok ""
  | '\x7b' :: '\x7b' :: rest =>
    (fun t => "\x7b" ++ t) <$> fmtAux posArgs lookupTop rest
  | '\x7d' :: '\x7d' :: rest =>
    (fun t => "\x7d" ++ t) <$> fmtAux posArgs lookupTop rest
  | '\x7b' :: rest => fmtField posArgs lookupTop rest []
  | '\x7d' :: _ =>
    .error (.valueErr "Single \x27\x7d\x27 encountered in format string")
  | c :: rest =>
    (fun t => String.singleton c ++ t) <$> fmtAux posArgs lookupTop rest

/-- Collect the chars of a replacement field up to the closing brace,
then substitute `str()` of the resolved value. -/
def fmtField (posArgs : List PValue) (lookupTop : String → Except FmtE NsVal) :
    List Char → List Char → Except FmtE String
  | [], _ =>
    .error (.valueErr "Single \x27\x7b\x27 encountered in format string")
  | '\x7d' :: rest, acc =>
    match resolveField posArgs lookupTop acc.reverse with
    | .error e => .error e
    | .ok v => (fun t => nsStr v ++ t) <$> fmtAux posArgs lookupTop rest
  | c :: rest, acc => fmtField posArgs lookupTop rest (c :: acc)

end

/-- Python `s.format(*posArgs, **kwargs)` with `kwargs` abstracted as a
lookup function. -/
def pyFormat (posArgs : List PValue)
    (lookupTop : String → Except FmtE NsVal) (s : String) :
    Except FmtE String :=
  fmtAux posArgs lookupTop s.data

/-!
## The substitution loop (validate.py:130-156)

`subst1 = SubstitutionNamespace(**subst)` plus `subst1["self"]`, a mirror
of the in-progress inputs.  Up to 10 passes; each pass walks the inputs
in insertion order, reformatting every plain (non-`Error`) string value
against the namespace; a formatting exception turns the value into an
`Error` marker; the loop stops at the first pass with no change and
raises the cyclic-substitution `ParameterValidationError` if all 10
passes changed something.
-/

/-- Keyword lookup against `subst1`: the key `"self"` is the mirror
namespace set at validate.py:135, everything else comes from the
caller-supplied `subst`. -/
def topLookup (base : List (String × NsVal)) (selfNs : List (String × NsVal))
    (k : String) : Except FmtE NsVal :=
  if k == "self" then .ok (.node selfNs)
  else
    match pyGet base k with
    | some v => .ok v
    | none => .error (.keyErr k)

/-- One pass of the loop body (validate.py:138-152): returns the updated
inputs, the updated `self` mirror and the `changed` flag.  On success the
mirror entry is set to the new string and the input is replaced when it
differs; on an exception the input becomes `Error(f"\x7bexc\x7d")` (when
that differs from the old content) and the mirror entry becomes the
plain string `"ERR"` (the generic `except` branch, validate.py:147-149;
the `ConfigAttributeError` branch is omegaconf-specific and cannot fire
on the namespaces modelled here). -/
def substPass (base : List (String × NsVal)) :
    List (String × PValue) → List (String × NsVal) → Bool →
    (List (String × PValue) × List (String × NsVal) × Bool)
  | [], selfNs, changed => ([], selfNs, changed)
  | (name, v) :: rest, selfNs, changed =>
    match v with
    | .vstr s =>
      match pyFormat [] (topLookup base selfNs) s with
      | .ok newv =>
        let selfNs1 := pyUpdate selfNs name (.leaf (.vstr newv))
        let changedHere := newv != s
        let v1 := if changedHere then PValue.vstr newv else v
        let (rest1, selfNs2, changed1) :=
          substPass base rest selfNs1 (changed || changedHere)
        ((name, v1) :: rest1, selfNs2, changed1)
      | .error e =>
        let msg := fmtErrMsg e
        let selfNs1 := pyUpdate selfNs name (.leaf (.vstr "ERR"))
        let changedHere := msg != s
        let v1 := if changedHere then PValue.verr msg else v
        let (rest1, selfNs2, changed1) :=
          substPass base rest selfNs1 (changed || changedHere)
        ((name, v1) :: rest1, selfNs2, changed1)
    | _ =>
      let (rest1, selfNs1, changed1) := substPass base rest selfNs changed
      ((name, v) :: rest1, selfNs1, changed1)

/-- The `for i in range(10)` loop with its `else: raise` clause
(validate.py:136-156), as fuelled recursion: running out of fuel is the
cyclic-substitution error. -/
def substLoopAux (base : List (String × NsVal)) :
    Nat → List (String × PValue) → List (String × NsVal) →
    Except Unit (List (String × PValue))
  | 0, _, _ => .error ()
  | n + 1, ins, selfNs =>
    let (ins1, selfNs1, changed) := substPass base ins selfNs false
    if changed then substLoopAux base n ins1 selfNs1 else .ok ins1

/-- The whole substitution stage when a namespace is supplied: the `self`
mirror starts as a namespace copy of the inputs (validate.py:135), and
the pass cap is 10 (validate.py:136). -/
def substLoop (base : List (String × NsVal)) (ins : List (String × PValue)) :
    Except Unit (List (String × PValue)) :=
  substLoopAux base 10 ins (ins.map (fun p => (p.1, NsVal.leaf p.2)))

/-!
## `validate_parameters` (validate.py:81-288)

The schemas parameter is duck-typed (`Dict[str, Any]`); the attributes
the function reads are `dtype`, `required`, `choices`, `default` and
`mkdir` (note validate.py:126 and 281 read `default`/`mkdir`, which the
`Parameter` dataclass of cargo.py does not even declare, so schemas in
practice are plain config objects carrying them).  External collaborators
(yaml list parsing, glob expansion, file-kind tests) are an environment
record, matching the spec's external-interfaces section.
-/

/-- Duck-typed parameter schema, with the attributes `validate_parameters`
reads. `default = none` models `schema.default is None`. -/
structure VSchema where
  dtype : String
  required : Bool
  choices : List PValue
  default : Option PValue
  mkdir : Bool

/-- The declared dtypes `eval(schema.dtype, globals())` resolves
(validate.py:178), as a closed tag set: scalar kinds, the `File` /
`Directory` / `MS` path types, and `List[...]` of these.  An unknown
dtype string is a `SchemaError`. -/
inductive DType where
  | dstr | dint | dbool | dfloat
  | dfile | ddir | dms
  | dlistOf (d : DType)
deriving DecidableEq

/-- The dtype strings the model resolves (the Python code `eval`s the
string in the module globals; these are the names that resolve there). -/
def evalDtype : String → Option DType
  | "str" => some .dstr
  | "int" => some .dint
  | "bool" => some .dbool
  | "float" => some .dfloat
  | "File" => some .dfile
  | "Directory" => some .ddir
  | "MS" => some .dms
  | "List[str]" => some (.dlistOf .dstr)
  | "List[int]" => some (.dlistOf .dint)
  | "List[File]" => some (.dlistOf .dfile)
  | "List[Directory]" => some (.dlistOf .ddir)
  | "List[MS]" => some (.dlistOf .dms)
  | _ => none

/-- The filesystem/yaml collaborators consumed by the file pass:
`yaml.safe_load` when it yields a list (validate.py:210-213), raw
`glob.glob` (validate.py:218), `os.path.isfile` / `os.path.isdir`. -/
structure FsEnv where
  yamlList : String → Option (List String)
  glob : String → List String
  isFile : String → Bool
  isDir : String → Bool

/-- The errors `validate_parameters` raises, structured; rendering of the
exact `f`-string messages is `errMessage` below. -/
inductive VError where
  | unknownParam (name : String)
  | cyclicSubst
  | missingRequired (names : List String)
  | schemaErr (msg : String)
  | invalidType (name : String)
  | noFilesFound (name : String) (value : String)
  | multipleFiles (name : String) (value : String)
  | notRegularFile (name : String) (value : String)
  | notDirectory (name : String) (value : String)
  | matchesNonFiles (name : String) (value : String)
  | matchesNonDirs (name : String) (value : String)
  | pydanticErr (names : List String)
  | invalidChoice (name : String) (value : PValue)

/-- `join_quote` (validate.py:34-35):
`"\x27" + "\x27, \x27".join(values) + "\x27" if values else ""`. -/
def join_quote (values : List String) : String :=
  if values.isEmpty then "" else "\x27" ++ pyJoin "\x27, \x27" values ++ "\x27"

/-- The exception messages, per the source `f`-strings. -/
def errMessage : VError → String
  | .unknownParam n => "unknown parameter \x27" ++ n ++ "\x27"
  | .cyclicSubst =>
    "recursion limit exceeded while evaluating \x7b\x7d-substitutions. This is usally caused by cyclic (cross-)references."
  | .missingRequired names => "missing required parameters: " ++ join_quote names
  | .schemaErr m => m
  | .invalidType n => "\x27" ++ n ++ "\x27: invalid type"
  | .noFilesFound n v => "\x27" ++ n ++ "\x27: no files found for \x27" ++ v ++ "\x27"
  | .multipleFiles n v => "\x27" ++ n ++ "\x27: multiple files given (\x27" ++ v ++ "\x27)"
  | .notRegularFile n v => "\x27" ++ n ++ "\x27: \x27" ++ v ++ "\x27 is not a regular file"
  | .notDirectory n v => "\x27" ++ n ++ "\x27: \x27" ++ v ++ "\x27 is not a directory"
  | .matchesNonFiles n v => n ++ ": \x27" ++ v ++ "\x27 matches non-files"
  | .matchesNonDirs n v => n ++ ": \x27" ++ v ++ "\x27 matches non-directories"
  | .pydanticErr names => pyJoin ", " names
  | .invalidChoice n v => n ++ ": invalid value \x27" ++ pyStr v ++ "\x27"

/-- The unknown-parameter check (validate.py:111-114): the first
parameter name not in the schemas, if the flag is set. -/
def checkUnknowns (flag : Bool) (params : List (String × PValue))
    (schemas : List (String × VSchema)) : Option String :=
  if flag then (params.find? (fun p => (pyGet schemas p.1).isNone)).map (fun p => p.1)
  else none

/-- Default filling (validate.py:121-127): for each schema entry whose
input `.get` is `None`, take `defaults[name]` when the key is present,
else the schema's own `default` when that is not `None`. -/
def fillDefaults (defaults : List (String × PValue)) :
    List (String × VSchema) → List (String × PValue) → List (String × PValue)
  | [], ins => ins
  | (name, sch) :: rest, ins =>
    fillDefaults defaults rest
      (if pvOptIsNone (pyGet ins name) then
        match pyGet defaults name with
        | some d => pyUpdate ins name d
        | none =>
          match sch.default with
          | some d => pyUpdate ins name d
          | none => ins
      else ins)

/-- `re.search("\x7b[^\x7b]", value)` (validate.py:160): an opening brace
followed by a character that is not another opening brace. -/
def hasSubstAux : List Char → Bool
  | c1 :: c2 :: rest => (c1 == '\x7b' && c2 != '\x7b') || hasSubstAux (c2 :: rest)
  | _ => false

def hasSubstPattern (s : String) : Bool := hasSubstAux s.data

/-- The `subst is None` branch (validate.py:158-162): plain non-`Error`
strings still containing a substitution pattern are moved to the
unresolved dict, wrapped in `Unresolved`.  Returns (kept inputs, moved
entries in encounter order). -/
def moveUnresolved :
    List (String × PValue) → (List (String × PValue) × List (String × PValue))
  | [] => ([], [])
  | (n, v) :: rest =>
    let (keep, moved) := moveUnresolved rest
    match v with
    | .vstr s =>
      if hasSubstPattern s then (keep, (n, .vunres s) :: moved)
      else ((n, v) :: keep, moved)
    | _ => ((n, v) :: keep, moved)

/-- The substitution stage of `validate_parameters`: the loop when a
namespace is supplied (validate.py:132-156), else the move-to-unresolved
scan (validate.py:158-162). -/
def substApply (subst : Option (List (String × NsVal)))
    (ins unres : List (String × PValue)) :
    Except VError (List (String × PValue) × List (String × PValue)) :=
  match subst with
  | some base =>
    match substLoop base ins with
    | .ok ins2 => .ok (ins2, unres)
    | .error _ => .error .cyclicSubst
  | none =>
    .ok ((moveUnresolved ins).1,
      (moveUnresolved ins).2.foldl (fun u p => pyUpdate u p.1 p.2) unres)

/-- The required-check list (validate.py:166): schema entries that are
required, whose input `.get` is `None` and that are not unresolved. -/
def requiredMissing (schemas : List (String × VSchema))
    (ins unres : List (String × PValue)) : List String :=
  schemas.filterMap (fun p =>
    if p.2.required && pvOptIsNone (pyGet ins p.1) && (pyGet unres p.1).isNone
    then some p.1 else none)

/-- Field construction (validate.py:171-187): for every schema entry with
a non-`None` value, resolve its dtype (raising `SchemaError` for an
unresolvable dtype string). -/
def buildFields :
    List (String × VSchema) → List (String × PValue) →
    Except VError (List (String × DType))
  | [], _ => .ok []
  | (n, sch) :: rest, ins =>
    if pvOptIsNone (pyGet ins n) then buildFields rest ins
    else
      match evalDtype sch.dtype with
      | none => .error (.schemaErr ("invalid " ++ n ++ ".dtype = " ++ sch.dtype))
      | some d => (fun fs => (n, d) :: fs) <$> buildFields rest ins

/-- Insertion sort by `≤`, modelling Python `sorted` on the glob result
(validate.py:218). -/
def insertSorted (s : String) : List String → List String
  | [] => [s]
  | x :: xs => if s ≤ x then s :: x :: xs else x :: insertSorted s xs

def pySorted : List String → List String
  | [] => []
  | x :: xs => insertSorted x (pySorted xs)

/-- The per-parameter file/glob pass (validate.py:193-261) for one input
entry, without the `create_dirs` side effects (directory creation does
not change any value).  Entries without a schema, `None` values and
`Error` values are skipped untouched; non-path dtypes are untouched;
a string value is first tried as a yaml list, then globbed (or taken
literally when `expand_globs` is off); an empty match set fails for a
required parameter under `check_exist` and otherwise collapses to an
empty string/list; scalar path types demand exactly one match of the
right kind; list path types demand every match be of the right kind. -/
def fileStep (env : FsEnv) (check_exist expand_globs : Bool)
    (schemas : List (String × VSchema)) (fields : List (String × DType))
    (name : String) (value : PValue) : Except VError PValue :=
  match pyGet schemas name with
  | none => .ok value
  | some sch =>
    if pvOptIsNone (some value) || pvIsErr value then .ok value
    else
      match pyGet fields name with
      | none => .ok value  -- `dtypes[name]`; never absent for a reachable entry
      | some dtype =>
        let is_file := dtype == .dfile || dtype == .ddir || dtype == .dms
        let is_file_list := dtype == .dlistOf .dfile || dtype == .dlistOf .ddir
          || dtype == .dlistOf .dms
        if !(is_file || is_file_list) then .ok value
        else
          let filesE : Except VError (List String) :=
            match value with
            | .vstr s =>
              match env.yamlList s with
              | some l => .ok l
              | none => .ok (if expand_globs then pySorted (env.glob s) else [s])
            | .vlist l => .ok (l.map pyStr)
            | _ => .error (.invalidType name)
          match filesE with
          | .error e => .error e
          | .ok files =>
            if files.isEmpty then
              if sch.required && check_exist then
                .error (.noFilesFound name (pyStr value))
              else .ok (if is_file_list then .vlist [] else .vstr "")
            else if is_file then
              match files with
              | [] => .ok value  -- unreachable: files nonempty here
              | f :: fs =>
                if !fs.isEmpty then .error (.multipleFiles name (pyStr value))
                else if check_exist then
                  if dtype == .dfile then
                    if env.isFile f then .ok (.vstr f)
                    else .error (.notRegularFile name (pyStr value))
                  else
                    if env.isDir f then .ok (.vstr f)
                    else .error (.notDirectory name (pyStr value))
                else .ok (.vstr f)
            else
              if check_exist then
                if dtype == .dlistOf .dfile then
                  if files.all env.isFile then .ok (.vlist (files.map .vstr))
                  else .error (.matchesNonFiles name (pyStr value))
                else
                  if files.all env.isDir then .ok (.vlist (files.map .vstr))
                  else .error (.matchesNonDirs name (pyStr value))
              else .ok (.vlist (files.map .vstr))

/-- The file pass over all inputs in insertion order (validate.py:193). -/
def fileStage (env : FsEnv) (check_exist expand_globs : Bool)
    (schemas : List (String × VSchema)) (fields : List (String × DType)) :
    List (String × PValue) → Except VError (List (String × PValue))
  | [] => .ok []
  | (n, v) :: rest =>
    match fileStep env check_exist expand_globs schemas fields n v with
    | .error e => .error e
    | .ok v2 =>
      match fileStage env check_exist expand_globs schemas fields rest with
      | .error e => .error e
      | .ok rest2 => .ok ((n, v2) :: rest2)

mutual

/-- A minimal model of the pydantic coercion one field undergoes
(validate.py:190, 265).  `Error` is a `str` subclass, so a `str`-typed
field keeps the `Error` instance; ints coerce to str and numeric strings
to int as pydantic v1 does; path-typed fields keep string values (the
file pass has already produced plain paths). -/
def pydanticCheck : DType → PValue → Option PValue
  | .dstr, .vstr s => some (.vstr s)
  | .dstr, .verr s => some (.verr s)
  | .dstr, .vint n => some (.vstr (toString n))
  | .dstr, .vbool b => some (.vstr (pyStr (.vbool b)))
  | .dint, .vint n => some (.vint n)
  | .dint, .vbool b => some (.vint (if b then 1 else 0))
  | .dint, .vstr s => (s.toInt?).map .vint
  | .dint, .verr s => (s.toInt?).map .vint
  | .dbool, .vbool b => some (.vbool b)
  | .dbool, .vint n => if n == 0 then some (.vbool false) else if n == 1 then some (.vbool true) else none
  | .dfloat, .vint n => some (.vint n)
  | .dfile, .vstr s => some (.vstr s)
  | .dfile, .verr s => some (.verr s)
  | .ddir, .vstr s => some (.vstr s)
  | .ddir, .verr s => some (.verr s)
  | .dms, .vstr s => some (.vstr s)
  | .dms, .verr s => some (.verr s)
  | .dlistOf d, .vlist l => (pydanticCheckList d l).map .vlist
  | _, _ => none

def pydanticCheckList (d : DType) : List PValue → Option (List PValue)
  | [] => some []
  | v :: vs =>
    match pydanticCheck d v with
    | none => none
    | some v2 =>
      match pydanticCheckList d vs with
      | none => none
      | some vs2 => some (v2 :: vs2)

end

/-- The typed-record construction and validation (validate.py:263-270):
every field, in schema order, is taken from the (possibly file-rewritten)
inputs and type-checked; failures are collected into a single aggregated
error naming the offending fields. -/
def pydanticStage (ins : List (String × PValue)) :
    List (String × DType) → (List (String × PValue) × List String)
  | [] => ([], [])
  | (n, d) :: rest =>
    let (vs, errs) := pydanticStage ins rest
    match pyGet ins n with
    | none => (vs, errs)
    | some v =>
      if pvOptIsNone (some v) then (vs, errs)
      else
        match pydanticCheck d v with
        | some v2 => ((n, v2) :: vs, errs)
        | none => (vs, n :: errs)

/-- The choice check (validate.py:273-276): a truthy (non-empty) choices
list must contain the validated value, by Python `in` (`==`). -/
def checkChoices (schemas : List (String × VSchema)) :
    List (String × PValue) → Option VError
  | [] => none
  | (n, v) :: rest =>
    match pyGet schemas n with
    | none => checkChoices schemas rest  -- `schemas[name]`; never absent here
    | some sch =>
      if !sch.choices.isEmpty && !(pyMem v sch.choices) then
        some (.invalidChoice n v)
      else checkChoices schemas rest

/-- Everything after the required check: field construction, file pass,
typed-record validation, choice check, the (value-preserving) mkdir pass
and the merge of unresolved entries (validate.py:170-288). -/
def afterRequired (env : FsEnv) (schemas : List (String × VSchema))
    (ins unres : List (String × PValue)) (check_exist expand_globs : Bool) :
    Except VError (List (String × PValue)) :=
  match buildFields schemas ins with
  | .error e => .error e
  | .ok fields =>
    match fileStage env check_exist expand_globs schemas fields ins with
    | .error e => .error e
    | .ok ins2 =>
      let (vals, errs) := pydanticStage ins2 fields
      if errs.isEmpty then
        match checkChoices schemas vals with
        | some e => .error e
        | none => .ok (unres.foldl (fun acc p => pyUpdate acc p.1 p.2) vals)
      else .error (.pydanticErr errs)

/-- `validate_parameters` (validate.py:81-288), with the directory
creation side effects elided (they change no value). -/
def validate_parameters (env : FsEnv) (params : List (String × PValue))
    (schemas : List (String × VSchema)) (subst : Option (List (String × NsVal)))
    (defaults : List (String × PValue))
    (check_unknowns check_required check_exist expand_globs : Bool) :
    Except VError (List (String × PValue)) :=
  match checkUnknowns check_unknowns params schemas with
  | some n => .error (.unknownParam n)
  | none =>
    let ins0 := params.filter (fun p => !pvIsUnres p.2)
    let unres0 := params.filter (fun p => pvIsUnres p.2)
    let ins1 := fillDefaults defaults schemas ins0
    match substApply subst ins1 unres0 with
    | .error e => .error e
    | .ok (ins2, unres2) =>
      let missing := if check_required then requiredMissing schemas ins2 unres2 else []
      if missing.isEmpty then
        afterRequired env schemas ins2 unres2 check_exist expand_globs
      else .error (.missingRequired missing)

/-!
## Parameter policies and the command compiler (cargo.py)

`ParameterPolicies` (cargo.py:25-58): `positional`, `positional_head`,
`repeat`, `prefix`, `split`, `format` and `format_list` are
`Optional` and default to `None`; `skip` and `skip_implicits` are plain
bools defaulting to `False` / `True`, so as omegaconf items they are
never `None`.  (`prefix` is a Lean keyword, hence the trailing
underscore on that field and its selector.)
-/

structure ParameterPolicies where
  positional : Option Bool
  positional_head : Option Bool
  repeat_ : Option String
  prefix_ : Option String
  skip : Bool
  skip_implicits : Bool
  split : Option String
  format : Option String
  format_list : Option (List String)

/-- A `ParameterPolicies` with every optional field unset and the bool
fields at their dataclass defaults (`skip=False`, `skip_implicits=True`). -/
def defaultPolicies : ParameterPolicies :=
  ⟨none, none, none, none, false, true, none, none, none⟩

/-- The policy field names `get_policy` is called with (the strings
passed as `policy` at cargo.py:289-342). -/
inductive PolicyField where
  | positional | positional_head | repeat_ | prefix_
  | skip | skip_implicits | split | format | format_list
deriving DecidableEq

/-- A policy field's value, unified over the field types. -/
inductive PolicyVal where
  | pb (b : Bool)
  | ps (s : String)
  | plist (l : List String)
deriving DecidableEq

/-- The omegaconf item access `policies[policy]` (cargo.py:277).  The
bool-typed fields `skip` / `skip_implicits` always hold a value (they
are not `Optional`), so the access never yields `None` for them. -/
def policyItem (p : ParameterPolicies) : PolicyField → Option PolicyVal
  | .positional => p.positional.map .pb
  | .positional_head => p.positional_head.map .pb
  | .repeat_ => p.repeat_.map .ps
  | .prefix_ => p.prefix_.map .ps
  | .skip => some (.pb p.skip)
  | .skip_implicits => some (.pb p.skip_implicits)
  | .split => p.split.map .ps
  | .format => p.format.map .ps
  | .format_list => p.format_list.map .plist

/-- `get_policy` (cargo.py:276-280): the parameter-level policy item if
it `is not None`, else the task-level (cab) policy item. -/
def get_policy (schema_policies task_policies : ParameterPolicies)
    (policy : PolicyField) : Option PolicyVal :=
  match policyItem schema_policies policy with
  | some v => some v
  | none => policyItem task_policies policy

/-- The fields of a cargo `Parameter` (cargo.py:69-93) that
`stringify_argument` / `build_argument_list` read.  (`alias` is a Lean
keyword, hence the trailing underscore.) -/
structure CabParameter where
  dtype : String
  implicit : Option String
  alias_ : Option String
  policies : ParameterPolicies

/-- One rendered command-line token as the Python code produces it: the
`repeat="repeat"` branch (cargo.py:322) builds
`list(itertools.chain([option, x] for x in value))`, i.e. `chain` applied
to a single generator argument, which yields the two-element *lists*
themselves rather than flattening them — so a produced token can itself
be a list. -/
inductive SToken where
  | str (s : String)
  | nested (l : List String)
deriving DecidableEq

/-- The possible return values of `stringify_argument` (cargo.py:282-330):
`None` (suppressed), a bare string (the separator-join branch with no
option), or a list of tokens. -/
inductive StrRes where
  | omitted
  | single (s : String)
  | toks (l : List SToken)
deriving DecidableEq

/-- Truthiness of a Python value (`not value`, cargo.py:285). -/
def pyTruthy : PValue → Bool
  | .vnone => false
  | .vbool b => b
  | .vint n => n != 0
  | .vstr s => !s.isEmpty
  | .verr s => !s.isEmpty
  | .vunres _ => true
  | .vlist l => !l.isEmpty

/-- `hasattr(value, "__iter__") and type(value) is not str`
(cargo.py:288): lists iterate their elements; `Error`, being a `str`
subclass but not exactly `str`, also counts as iterable (over its
characters).  Plain `str`, numbers and `None` do not. -/
def pyIterElems : PValue → Option (List PValue)
  | .vlist l => some l
  | .verr s => some (s.data.map (fun c => .vstr (String.singleton c)))
  | _ => none

/-- Keyword lookup for `fmt.format(..., **value_dict)`: a missing name is
a `KeyError`. -/
def valueDictLookup (value_dict : List (String × PValue)) (k : String) :
    Except FmtE NsVal :=
  match pyGet value_dict k with
  | some v => .ok (.leaf v)
  | none => .error (.keyErr k)

/-- Element formatting for a list value without `format_list`
(cargo.py:303-306): apply a truthy `format` per element, else `str`. -/
def fmtElemsPlain (format_policy : Option String)
    (value_dict : List (String × PValue)) (elems : List PValue) :
    Except String (List String) :=
  match format_policy with
  | some fmt =>
    if !fmt.isEmpty then
      elems.foldr (fun x acc =>
        match acc with
        | .error e => .error e
        | .ok rest =>
          match pyFormat [x] (valueDictLookup value_dict) fmt with
          | .ok s => .ok (s :: rest)
          | .error e => .error (fmtErrMsg e)) (.ok [])
    else .ok (elems.map pyStr)
  | none => .ok (elems.map pyStr)

/-- The scalar tail of `stringify_argument` (cargo.py:311-314, 329-330):
apply a truthy `format` (or `str`), then `[option, value] if option else
[value]`. -/
def renderScalar (format_policy : Option String)
    (value_dict : List (String × PValue)) (value : PValue)
    (option : Option String) : Except String StrRes :=
  let sE : Except String String :=
    match format_policy with
    | some fmt =>
      if !fmt.isEmpty then
        match pyFormat [value] (valueDictLookup value_dict) fmt with
        | .ok s => .ok s
        | .error e => .error (fmtErrMsg e)
      else .ok (pyStr value)
    | none => .ok (pyStr value)
  match sE with
  | .error e => .error e
  | .ok s =>
    match option with
    | some o => .ok (.toks [.str o, .str s])
    | none => .ok (.toks [.str s])

/-- The list rendering under the `repeat` policy (cargo.py:316-328).
`"list"` → flag then each element; `"repeat"` → the buggy
`itertools.chain` over a single generator, producing nested pair-tokens;
any other string → flag then one joined token (a bare joined string with
no flag); `None` → `TypeError`. -/
def renderList (gp : PolicyField → Option PolicyVal) (name : String)
    (option : Option String) (strs : List String) : Except String StrRes :=
  let repeat_policy : Option String :=
    match gp .repeat_ with | some (.ps s) => some s | _ => none
  match repeat_policy with
  | some rp =>
    if rp == "list" then
      match option with
      | some o => .ok (.toks (.str o :: strs.map .str))
      | none => .ok (.toks (strs.map .str))
    else if rp == "repeat" then
      match option with
      | some o => .ok (.toks (strs.map (fun x => .nested [o, x])))
      | none => .ok (.toks (strs.map .str))
    else
      match option with
      | some o => .ok (.toks [.str o, .str (pyJoin rp strs)])
      | none => .ok (.single (pyJoin rp strs))
  | none =>
    .error ("list-type parameter \x27" ++ name ++ "\x27 does not have a repeat policy set")

/-- `stringify_argument` (cargo.py:282-330).  `value_dict` is the full
parameter dict passed for `**`-format context; `task_policies` is the
cab-level fallback consulted by `get_policy`.  Formatting exceptions
propagate (there is no `try` around the `.format` calls), modelled as
`.error` with the exception text. -/
def stringify_argument (task_policies : ParameterPolicies)
    (value_dict : List (String × PValue)) (name : String) (value : PValue)
    (schema : CabParameter) (option : Option String) :
    Except String StrRes :=
  match value with
  | .vnone => .ok .omitted
  | _ =>
    if schema.dtype == "bool" && !pyTruthy value then .ok .omitted
    else
      let gp := get_policy schema.policies task_policies
      let format_policy : Option String :=
        match gp .format with | some (.ps s) => some s | _ => none
      let format_list_policy : Option (List String) :=
        match gp .format_list with | some (.plist l) => some l | _ => none
      let split_policy : Option String :=
        match gp .split with | some (.ps s) => some s | _ => none
      -- `type(value) is str and split_policy` (cargo.py:293): plain str
      -- only, and an empty separator string is falsy.
      let split0 : Option (List PValue) :=
        match value, split_policy with
        | .vstr s, some sep =>
          if sep.isEmpty then none
          else some ((s.splitOn sep).map .vstr)
        | _, _ => none
      let asList : Option (List PValue) :=
        match split0 with
        | some l => some l
        | none => pyIterElems value
      match asList with
      | some elems =>
        -- list-valued branch (cargo.py:297-306)
        let strsE : Except String (List String) :=
          match format_list_policy with
          | some fmts =>
            if !fmts.isEmpty then
              if fmts.length != elems.length then
                .error "length of format_list_policy does not match length of \x27\x7bname\x7d\x27"
              else
                fmts.foldr (fun fmt (acc : Except String (List String)) =>
                  match acc with
                  | .error e => .error e
                  | .ok rest =>
                    match pyFormat elems (valueDictLookup value_dict) fmt with
                    | .ok s => .ok (s :: rest)
                    | .error e => .error (fmtErrMsg e)) (.ok [])
            else fmtElemsPlain format_policy value_dict elems
          | none => fmtElemsPlain format_policy value_dict elems
        match strsE with
        | .error e => .error e
        | .ok strs => renderList gp name option strs
      | none =>
        -- scalar branch (cargo.py:307-314)
        match format_list_policy with
        | some fmts =>
          if !fmts.isEmpty then
            match
              fmts.foldr (fun fmt (acc : Except String (List String)) =>
                match acc with
                | .error e => .error e
                | .ok rest =>
                  match pyFormat [value] (valueDictLookup value_dict) fmt with
                  | .ok s => .ok (s :: rest)
                  | .error e => .error (fmtErrMsg e)) (.ok [])
            with
            | .error e => .error e
            | .ok strs => renderList gp name option strs
          else renderScalar format_policy value_dict value option
        | none => renderScalar format_policy value_dict value option

/-!
## The output wrangler (cargo.py:380-406)

A compiled wrangler rule is `(regex, replace, actions)` (cargo.py:206).
The regex operations on a rule are abstracted as functions: `search`
models `regex.search(output)` as a match test, and a present replacement
template models `regex.sub(replace, output)` as a rewriting function of
the searched string.  An action is a numeric log level or one of the
symbolic actions; dispatch in the source is by object identity
(cargo.py:395-403), and the three symbolic action objects are distinct,
so an inductive tag is faithful (the `DECLARE_SUCCESS` action's *display
string* is the copy-pasted "DECLARE_SUPPRESS", cargo.py:177, but no code
path compares these strings for equality).
-/

inductive WAction where
  | level (n : Nat)
  | suppress
  | declareSuccess
  | declareFailure

structure WranglerRule where
  search : String → Bool
  replace : Option (String → String)
  actions : List WAction

/-- `logging.ERROR`. -/
def loggingERROR : Nat := 40

/-- The mutable loop state of one `apply_output_wranglers` call plus the
persistent `self._runtime_status` (`none` = unknown, `some true` =
success, `some false` = failure). -/
structure WState where
  suppress : Bool
  modified : String
  severity : Nat
  status : Option Bool

/-- The action loop of one firing rule (cargo.py:394-405).  An int
action overrides the severity; `SUPPRESS` requests suppression; the two
declare actions fire only while the runtime status `is None`, set it
exactly once, and prefix the *current* modified line (failure also
forces error severity). -/
def applyActions : List WAction → WState → WState
  | [], st => st
  | a :: rest, st =>
    applyActions rest
      (match a with
      | .level n => { st with severity := n }
      | .suppress => { st with suppress := true }
      | .declareFailure =>
        if st.status.isNone then
          { st with status := some false,
                    modified := "[FAILURE] " ++ st.modified,
                    severity := loggingERROR }
        else st
      | .declareSuccess =>
        if st.status.isNone then
          { st with status := some true,
                    modified := "[SUCCESS] " ++ st.modified }
        else st)

/-- One rule of the wrangler loop (cargo.py:390-405): the rule fires when
its regex finds a match in the *original* `output`; a present replacement
rewrites the *original* `output` (both cargo.py:391 and 393 use `output`,
not `modified_output`). -/
def applyRule (output : String) (r : WranglerRule) (st : WState) : WState :=
  if r.search output then
    applyActions r.actions
      (match r.replace with
      | some f => { st with modified := f output }
      | none => st)
  else st

def wrangleRules (output : String) : List WranglerRule → WState → WState
  | [], st => st
  | r :: rs, st => wrangleRules output rs (applyRule output r st)

/-- `apply_output_wranglers` (cargo.py:387-406): returns
`(None, 0)` when any firing rule requested suppression, else the
(possibly rewritten) line and final severity — plus the updated runtime
status that the method stores on `self`. -/
def apply_output_wranglers (rules : List WranglerRule) (status : Option Bool)
    (output : String) (severity : Nat) : (Option String × Nat) × Option Bool :=
  let st := wrangleRules output rules ⟨false, output, severity, status⟩
  (if st.suppress then (none, 0) else (some st.modified, st.severity), st.status)

/-- `reset_runtime_status` (cargo.py:384-385). -/
def reset_runtime_status (_status : Option Bool) : Option Bool := none

/-- Folding `apply_output_wranglers` over a sequence of output lines (the
caller feeds lines in order, one call per line), tracking only the
runtime status. -/
def runLinesStatus (rules : List WranglerRule) (status : Option Bool) :
    List (String × Nat) → Option Bool
  | [] => status
  | (line, sev) :: rest =>
    runLinesStatus rules (apply_output_wranglers rules status line sev).2 rest

/-- The last rule in the list that fires on `output` and carries a
replacement template — under the source's original-line semantics, the
rule whose rewrite survives. -/
def lastReplaceFiring (output : String) : List WranglerRule → Option WranglerRule
  | [] => none
  | r :: rs =>
    match lastReplaceFiring output rs with
    | some q => some q
    | none => if r.search output && r.replace.isSome then some r else none

/-!
## Concrete fixtures used by the claim theorems and witnesses
-/

/-- An environment in which every glob is empty and nothing exists. -/
def envEmpty : FsEnv := ⟨fun _ => none, fun _ => [], fun _ => false, fun _ => false⟩

/-- A plain optional `str` schema with no choices and no default. -/
def schStr : VSchema := ⟨"str", false, [], none, false⟩

/-- A required `str` schema with no default. -/
def schReq : VSchema := ⟨"str", true, [], none, false⟩

/-- A required scalar `File` schema. -/
def schFileReq : VSchema := ⟨"File", true, [], none, false⟩

/-- An optional scalar `File` schema. -/
def schFileOpt : VSchema := ⟨"File", false, [], none, false⟩

/-- A `str` schema with a default declared in the schema itself. -/
def schDef : VSchema := ⟨"str", false, [], some (.vstr "schemadefault"), false⟩

/-- Policies with only the `repeat` field set. -/
def polRepeat (rp : Option String) : ParameterPolicies :=
  ⟨none, none, rp, none, false, true, none, none, none⟩

/-- A `List[int]` cab parameter whose policies set only `repeat`. -/
def parRepeat (rp : Option String) : CabParameter :=
  ⟨"List[int]", none, none, polRepeat rp⟩

/-- Wrangler rule: regex `a`, replacement `x` (`re.search` of a
one-character literal pattern is character membership, and its `re.sub`
replaces every occurrence), no actions. -/
def wrA : WranglerRule :=
  ⟨fun s => s.data.contains 'a',
   some (fun s => String.mk (s.data.map (fun c => if c == 'a' then 'x' else c))), []⟩

/-- Wrangler rule: regex `b`, replacement `y`, no actions. -/
def wrB : WranglerRule :=
  ⟨fun s => s.data.contains 'b',
   some (fun s => String.mk (s.data.map (fun c => if c == 'b' then 'y' else c))), []⟩

/-- Wrangler rule matching the line `A` and declaring failure. -/
def wrFail : WranglerRule := ⟨fun s => s == "A", none, [.declareFailure]⟩

/-- Wrangler rule matching the line `B` and declaring success. -/
def wrSucc : WranglerRule := ⟨fun s => s == "B", none, [.declareSuccess]⟩

/-- Wrangler rule firing on every line, rewriting it with a `z` prefix. -/
def wrZ : WranglerRule := ⟨fun _ => true, some (fun s => "z" ++ s), []⟩

/-!
## Association-list lemmas
-/

theorem pyGet_eq_none_iff {α : Type} (l : List (String × α)) (k : String) :
    pyGet l k = none ↔ ∀ p ∈ l, p.1 ≠ k := by
  simp [pyGet, List.find?_eq_none]

theorem pyGet_cons {α : Type} (p : String × α) (t : List (String × α))
    (k : String) :
    pyGet (p :: t) k = if p.1 == k then some p.2 else pyGet t k := by
  by_cases h : p.1 == k
  · simp [pyGet, List.find?_cons_of_pos, h]
  · simp [pyGet, List.find?_cons_of_neg, h]

theorem pyGet_append {α : Type} (l1 l2 : List (String × α)) (k : String) :
    pyGet (l1 ++ l2) k = ((pyGet l1 k).orElse (fun _ => pyGet l2 k)) := by
  induction l1 with
  | nil => simp [pyGet]
  | cons p t ih =>
    by_cases h : p.1 == k
    · simp [pyGet, List.find?_cons_of_pos, h]
    · simpa [pyGet, List.find?_cons_of_neg, h] using ih

theorem pyGet_pyUpdate {α : Type} :
    ∀ (d : List (String × α)) (k : String) (v : α) (k' : String),
      pyGet (pyUpdate d k v) k' = if k = k' then some v else pyGet d k' := by
  intro d
  induction d with
  | nil =>
    intro k v k'
    by_cases he : k = k'
    · simp [pyUpdate, pyGet_cons, he]
    · have h2 : ¬ ((k : String) == k') = true := by simpa using he
      simp [pyUpdate, pyGet_cons, h2, he, pyGet]
  | cons p t ih =>
    intro k v k'
    by_cases h : (p.1 == k)
    · have hp : p.1 = k := by simpa using h
      rw [pyUpdate, if_pos h]
      by_cases he : k = k'
      · simp [pyGet_cons, he]
      · have h2 : ¬ ((k : String) == k') = true := by simpa using he
        have h3 : ¬ (p.1 == k') = true := by simpa [hp] using he
        simp [pyGet_cons, h2, h3, he]
    · rw [pyUpdate, if_neg h]
      by_cases h4 : p.1 == k'
      · have he : ¬ k = k' := by
          intro hkk
          exact h (by simpa [hkk] using h4)
        simp [pyGet_cons, h4, he]
      · simp [pyGet_cons, h4, ih]

theorem pyGet_foldl_pyUpdate_none {α : Type} (name : String) :
    ∀ (moved : List (String × α)) (u : List (String × α)),
      (∀ p ∈ moved, p.1 ≠ name) → pyGet u name = none →
      pyGet (moved.foldl (fun acc p => pyUpdate acc p.1 p.2) u) name = none := by
  intro moved
  induction moved with
  | nil => intro u _ hu; simpa using hu
  | cons p t ih =>
    intro u hm hu
    have hp : p.1 ≠ name := hm p (List.mem_cons_self p t)
    have hu2 : pyGet (pyUpdate u p.1 p.2) name = none := by
      rw [pyGet_pyUpdate]
      simp [hp, hu]
    exact ih (pyUpdate u p.1 p.2)
      (fun q hq => hm q (List.mem_cons_of_mem p hq)) hu2

theorem pyGet_filter_none {α : Type} (l : List (String × α))
    (q : String × α → Bool) (k : String) (h : pyGet l k = none) :
    pyGet (l.filter q) k = none := by
  rw [pyGet_eq_none_iff] at h ⊢
  intro p hp
  exact h p (List.mem_of_mem_filter hp)

theorem pyGet_filter_of_pred {α : Type} :
    ∀ (l : List (String × α)) (q : String × α → Bool) (k : String) (v : α),
      pyGet l k = some v → q (k, v) = true → pyGet (l.filter q) k = some v := by
  intro l
  induction l with
  | nil => intro q k v h _; simp [pyGet] at h
  | cons p t ih =>
    intro q k v h hq
    by_cases hk : p.1 == k
    · have hk2 : p.1 = k := by simpa using hk
      have hv : p.2 = v := by
        rw [pyGet_cons, if_pos hk] at h
        simpa using h
      have hp : p = (k, v) := by
        cases p; simp_all
      subst hp
      have : q (k, v) = true := hq
      simp [List.filter_cons, this, pyGet_cons]
    · rw [pyGet_cons, if_neg hk] at h
      by_cases hqp : q p
      · rw [List.filter_cons, if_pos hqp, pyGet_cons, if_neg hk]
        exact ih q k v h hq
      · rw [List.filter_cons, if_neg hqp]
        exact ih q k v h hq

/-!
## Claim theorems
-/

/-- Whether a `validate_parameters` run returned normally (no exception
raised). -/
def vpReturned {α : Type} : Except VError α → Bool
  | .ok _ => true
  | .error _ => false

/-- C1: for a list-valued parameter `[1,2]` with option name `n` and
prefix `--`, `stringify_argument` renders `repeat="list"` as
`["--n","1","2"]`, a literal separator `","` as `["--n","1,2"]` and
`repeat=None` as a hard `TypeError`, exactly as claimed — but the
`repeat="repeat"` branch applies `itertools.chain` to a single generator
of `[option, x]` pairs, so it returns the nested pair-lists
`[["--n","1"],["--n","2"]]` rather than the claimed (and doc-commented,
cargo.py:33) flat `["--n","1","--n","2"]`. -/
theorem c1_list_repeat_policies :
    stringify_argument defaultPolicies [] "n" (.vlist [.vint 1, .vint 2])
        (parRepeat (some "list")) (some "--n")
      = .ok (.toks [.str "--n", .str "1", .str "2"]) ∧
    stringify_argument defaultPolicies [] "n" (.vlist [.vint 1, .vint 2])
        (parRepeat (some ",")) (some "--n")
      = .ok (.toks [.str "--n", .str "1,2"]) ∧
    stringify_argument defaultPolicies [] "n" (.vlist [.vint 1, .vint 2])
        (parRepeat none) (some "--n")
      = .error "list-type parameter \x27n\x27 does not have a repeat policy set" ∧
    stringify_argument defaultPolicies [] "n" (.vlist [.vint 1, .vint 2])
        (parRepeat (some "repeat")) (some "--n")
      = .ok (.toks [.nested ["--n", "1"], .nested ["--n", "2"]]) ∧
    (StrRes.toks [.nested ["--n", "1"], .nested ["--n", "2"]]
      == StrRes.toks [.str "--n", .str "1", .str "--n", .str "2"]) = false := by
  refine ⟨rfl, rfl, rfl, rfl, ?_⟩
  decide


/-- C2 counterexample: with the parameters `a="\x7bb\x7d"`,
`b="\x7ba\x7d"` and a supplied (empty) substitution namespace,
`validate_parameters` does *not* raise the cyclic-substitution error:
`\x7bb\x7d` is formatted against the caller namespace (not against the
parameter dict), the missing key raises `KeyError` on the first pass,
both values become `Error` markers that are excluded from later passes,
and the loop reaches a fixed point on pass 2, returning normally. -/
theorem c2_counterexample :
    validate_parameters envEmpty
        [("a", .vstr "\x7bb\x7d"), ("b", .vstr "\x7ba\x7d")]
        [("a", schStr), ("b", schStr)] (some []) [] true true true true
      = .ok [("a", .verr "\x27b\x27"), ("b", .verr "\x27a\x27")] ∧
    vpReturned (validate_parameters envEmpty
        [("a", .vstr "\x7bb\x7d"), ("b", .vstr "\x7ba\x7d")]
        [("a", schStr), ("b", schStr)] (some []) [] true true true true)
      = true :=
  ⟨rfl, rfl⟩

/-- C2 amended: with the parameters `a="\x7bb\x7d"`, `b="\x7ba\x7d"` and
a substitution namespace that itself binds `a` and `b` to those
mutually-referential templates, every one of the 10 capped passes changes
a value (the two values keep swapping), so `validate_parameters` raises
the cyclic-substitution `ParameterValidationError` at the iteration cap
and never loops forever. -/
theorem c2_amended :
    validate_parameters envEmpty
        [("a", .vstr "\x7bb\x7d"), ("b", .vstr "\x7ba\x7d")]
        [("a", schStr), ("b", schStr)]
        (some [("a", .leaf (.vstr "\x7bb\x7d")), ("b", .leaf (.vstr "\x7ba\x7d"))])
        [] true true true true
      = .error .cyclicSubst ∧
    errMessage .cyclicSubst
      = "recursion limit exceeded while evaluating \x7b\x7d-substitutions. This is usally caused by cyclic (cross-)references." :=
  ⟨rfl, rfl⟩

/-- C3 counterexample: with the parameters `a="\x7bb\x7d"`,
`b="literal"` and a supplied (empty) substitution namespace, `a` does not
resolve to `"literal"`: the template's key `b` is looked up in the caller
namespace, the lookup raises `KeyError`, and `a` comes back as the
`Error` marker `"\x27b\x27"`. -/
theorem c3_counterexample :
    validate_parameters envEmpty
        [("a", .vstr "\x7bb\x7d"), ("b", .vstr "literal")]
        [("a", schStr), ("b", schStr)] (some []) [] true true true true
      = .ok [("a", .verr "\x27b\x27"), ("b", .vstr "literal")] ∧
    pvIsErr (.verr "\x27b\x27") = true :=
  ⟨rfl, rfl⟩

/-- C3 amended: with the parameters `a="\x7bb\x7d"`, `b="literal"` and a
substitution namespace binding `b` to `"literal"`, the loop reaches the
fixed point `a="literal", b="literal"` within 2 passes (the first pass
substitutes, the second confirms no change), and both values come back as
plain resolved strings, not `Unresolved` or `Error` markers. -/
theorem c3_amended :
    validate_parameters envEmpty
        [("a", .vstr "\x7bb\x7d"), ("b", .vstr "literal")]
        [("a", schStr), ("b", schStr)]
        (some [("b", .leaf (.vstr "literal"))]) [] true true true true
      = .ok [("a", .vstr "literal"), ("b", .vstr "literal")] ∧
    substLoopAux [("b", .leaf (.vstr "literal"))] 2
        [("a", .vstr "\x7bb\x7d"), ("b", .vstr "literal")]
        [("a", .leaf (.vstr "\x7bb\x7d")), ("b", .leaf (.vstr "literal"))]
      = .ok [("a", .vstr "literal"), ("b", .vstr "literal")] :=
  ⟨rfl, rfl⟩

/-!
### C4: wrangler rewrites and the original line
-/

theorem applyActions_empty (st : WState) : applyActions [] st = st := rfl

/-- With no actions, one processed rule changes only `modified`, and it
computes the rewrite from the `output` argument. -/
theorem applyRule_no_actions (output : String) (r : WranglerRule) (st : WState)
    (h : r.actions = []) :
    applyRule output r st =
      if r.search output then
        match r.replace with
        | some f => { st with modified := f output }
        | none => st
      else st := by
  unfold applyRule
  rw [h]
  by_cases hs : r.search output
  · simp [hs, applyActions_empty]
  · simp [hs]

/-- A rule returned by `lastReplaceFiring` carries a replacement. -/
theorem lastReplaceFiring_isSome (output : String) :
    ∀ (l : List WranglerRule) (q : WranglerRule),
      lastReplaceFiring output l = some q → ∃ f, q.replace = some f := by
  intro l
  induction l with
  | nil => intro q h; exact absurd h (by simp [lastReplaceFiring])
  | cons r rs ih =>
    intro q h
    rw [lastReplaceFiring] at h
    cases hl : lastReplaceFiring output rs with
    | some p =>
      rw [hl] at h
      have hpq : p = q := Option.some.inj h
      subst hpq
      exact ih p hl
    | none =>
      rw [hl] at h
      by_cases hs : (r.search output && r.replace.isSome)
      · rw [if_pos hs] at h
        have hrq : r = q := Option.some.inj h
        subst hrq
        exact Option.isSome_iff_exists.mp (Bool.and_eq_true_iff.mp hs).2
      · rw [if_neg hs] at h
        exact Option.noConfusion h

/-- Under action-free rules, `wrangleRules` leaves `suppress`, `severity`
and `status` untouched and sets `modified` to the last firing rule's
rewrite of the *original* line (or leaves it unchanged when no firing
rule has a replacement). -/
theorem wrangleRules_no_actions (output : String) :
    ∀ (rules : List WranglerRule) (st : WState),
      (∀ r ∈ rules, r.actions = []) →
      wrangleRules output rules st =
        { st with modified :=
            match lastReplaceFiring output rules with
            | some q =>
              match q.replace with
              | some f => f output
              | none => st.modified
            | none => st.modified } := by
  intro rules
  induction rules with
  | nil => intro st _; simp [wrangleRules, lastReplaceFiring]
  | cons r rs ih =>
    intro st hall
    have hr : r.actions = [] := hall r (List.mem_cons_self r rs)
    have hrest : ∀ q ∈ rs, q.actions = [] :=
      fun q hq => hall q (List.mem_cons_of_mem r hq)
    rw [wrangleRules, ih (applyRule output r st) hrest,
        applyRule_no_actions output r st hr]
    cases hlast : lastReplaceFiring output rs with
    | some q =>
      have hcons : lastReplaceFiring output (r :: rs) = some q := by
        rw [lastReplaceFiring, hlast]
      rw [hcons]
      obtain ⟨f, hf⟩ := lastReplaceFiring_isSome output rs q hlast
      by_cases hs : r.search output
      · cases hrep : r.replace <;> simp [hs, hrep, hf]
      · simp [hs, hf]
    | none =>
      by_cases hs : r.search output
      · cases hrep : r.replace with
        | some f =>
          have hcons : lastReplaceFiring output (r :: rs) = some r := by
            rw [lastReplaceFiring, hlast]
            simp [hs, hrep]
          rw [hcons]
          simp [hs, hrep]
        | none =>
          have hcons : lastReplaceFiring output (r :: rs) = none := by
            rw [lastReplaceFiring, hlast]
            simp [hs, hrep]
          rw [hcons]
          simp [hs, hrep]
      · have hcons : lastReplaceFiring output (r :: rs) = none := by
          rw [lastReplaceFiring, hlast]
          simp [hs]
        rw [hcons]
        simp [hs]

/-- C4 (amended): within one `apply_output_wranglers` call over
rewrite-only rules, every firing rule's replacement is computed from the
*original* input line — later firing rules do not see earlier rewrites;
when several firing rules carry replacements, only the last one's rewrite
of the original line survives, and with no firing replacement the line
passes through unchanged. -/
theorem c4_amended (rules : List WranglerRule) (status : Option Bool)
    (output : String) (severity : Nat)
    (h : ∀ r ∈ rules, r.actions = []) :
    (lastReplaceFiring output rules = none →
      apply_output_wranglers rules status output severity
        = ((some output, severity), status)) ∧
    (∀ r f, lastReplaceFiring output rules = some r → r.replace = some f →
      apply_output_wranglers rules status output severity
        = ((some (f output), severity), status)) := by
  constructor
  · intro hnone
    unfold apply_output_wranglers
    rw [wrangleRules_no_actions output rules _ h, hnone]
    simp
  · intro r f hlast hrep
    unfold apply_output_wranglers
    rw [wrangleRules_no_actions output rules _ h, hlast]
    simp [hrep]

/-- Witness for the amended C4 at a concrete input. -/
theorem c4_amended_witness :
    apply_output_wranglers [wrZ] none "o" 7 = ((some "zo", 7), none) :=
  (c4_amended [wrZ] none "o" 7
      (by intro r hr; rw [List.mem_singleton] at hr; subst hr; rfl)).2
    wrZ (fun s => "z" ++ s) rfl rfl

/-- C4 counterexample: rules `a→x` and `b→y` both fire on the line
`"ab"`. Cumulative application (the claim) would produce `"xy"`; the code
matches and rewrites the original line each time, so the first rewrite is
discarded and the call returns `"ay"`. -/
theorem c4_counterexample :
    apply_output_wranglers [wrA, wrB] none "ab" 20 = ((some "ay", 20), none) ∧
    String.mk ((String.mk ("ab".data.map (fun c => if c == 'a' then 'x' else c))).data.map
        (fun c => if c == 'b' then 'y' else c)) = "xy" ∧
    (("ay" : String) == "xy") = false := by
  refine ⟨rfl, rfl, ?_⟩
  decide

/-!
### C5: the runtime verdict is first-wins
-/

/-- The action loop never overwrites an already-set verdict: both declare
branches are guarded by `self._runtime_status is None` (cargo.py:399,
403). -/
theorem applyActions_status_set :
    ∀ (acts : List WAction) (st : WState) (v : Bool),
      st.status = some v → (applyActions acts st).status = some v := by
  intro acts
  induction acts with
  | nil => intro st v h; exact h
  | cons a rest ih =>
    intro st v h
    show (applyActions rest _).status = some v
    cases a with
    | level n => exact ih _ v h
    | suppress => exact ih _ v h
    | declareFailure =>
      have : st.status.isNone = false := by rw [h]; rfl
      rw [this]
      exact ih _ v (by simpa using h)
    | declareSuccess =>
      have : st.status.isNone = false := by rw [h]; rfl
      rw [this]
      exact ih _ v (by simpa using h)

theorem applyRule_status_set (output : String) (r : WranglerRule)
    (st : WState) (v : Bool) (h : st.status = some v) :
    (applyRule output r st).status = some v := by
  unfold applyRule
  by_cases hs : r.search output
  · rw [if_pos hs]
    cases hrep : r.replace with
    | some f => exact applyActions_status_set r.actions _ v (by simpa using h)
    | none => exact applyActions_status_set r.actions _ v h
  · rw [if_neg hs]; exact h

theorem wrangleRules_status_set (output : String) :
    ∀ (rules : List WranglerRule) (st : WState) (v : Bool),
      st.status = some v → (wrangleRules output rules st).status = some v := by
  intro rules
  induction rules with
  | nil => intro st v h; exact h
  | cons r rs ih =>
    intro st v h
    rw [wrangleRules]
    exact ih _ v (applyRule_status_set output r st v h)

/-- C5: the per-task verdict is first-wins.  Once `runtime_status` is set
to success or failure, no later sequence of `apply_output_wranglers`
calls changes it (no matter what `DECLARE_SUCCESS` / `DECLARE_FAILURE`
rules later lines match); only `reset_runtime_status` returns it to
unknown.  In particular a line matching a `DECLARE_FAILURE` rule followed
by a line matching a `DECLARE_SUCCESS` rule leaves the verdict at
failure. -/
theorem c5_first_verdict_wins :
    (∀ (rules : List WranglerRule) (lines : List (String × Nat)) (v : Bool),
      runLinesStatus rules (some v) lines = some v) ∧
    (∀ status : Option Bool, reset_runtime_status status = none) ∧
    runLinesStatus [wrFail, wrSucc] none [("A", 20), ("B", 20)] = some false := by
  refine ⟨?_, fun _ => rfl, rfl⟩
  intro rules lines
  induction lines with
  | nil => intro v; rfl
  | cons p rest ih =>
    intro v
    rw [runLinesStatus]
    have : (apply_output_wranglers rules (some v) p.1 p.2).2 = some v :=
      wrangleRules_status_set p.1 rules _ v rfl
    rw [this]
    exact ih v

/-!
### C6: per-field policy resolution
-/

/-- C6: for every policy field, `get_policy` resolves the effective
policy per field: a set (non-`None`) parameter-level item always wins, a
unset parameter-level item falls back to the task-level item, and the
result is always exactly one of the two (two set values are never
merged). -/
theorem c6_policy_fallback (f : PolicyField) (sp tp : ParameterPolicies) :
    (∀ v, policyItem sp f = some v → get_policy sp tp f = some v) ∧
    (policyItem sp f = none → get_policy sp tp f = policyItem tp f) ∧
    (get_policy sp tp f = policyItem sp f ∨ get_policy sp tp f = policyItem tp f) := by
  cases h : policyItem sp f with
  | none =>
    refine ⟨?_, ?_, ?_⟩ <;> simp [get_policy, h]
  | some v =>
    refine ⟨?_, ?_, ?_⟩ <;> simp [get_policy, h]

/-- Witness for C6 at a concrete field and concrete policy records. -/
theorem c6_policy_fallback_witness :
    get_policy (polRepeat (some "x")) defaultPolicies .repeat_
      = some (.ps "x") :=
  (c6_policy_fallback .repeat_ (polRepeat (some "x")) defaultPolicies).1
    (.ps "x") rfl

/-!
### C8: path-typed parameter with an empty match set
-/

/-- C8: for a `File`/`Directory`/`MS`-typed parameter whose string value
parses as no yaml list and globs to zero paths (with glob expansion on):
if the parameter is required and `check_exist` is set the file pass fails
with the no-files-found `ParameterValidationError`; otherwise the value
collapses to the empty string (empty list for `List[File]`-style dtypes)
and the rest of the per-parameter file handling is skipped — the result
never consults the existence oracles. -/
theorem c8_empty_file_match (env : FsEnv) (schemas : List (String × VSchema))
    (fields : List (String × DType)) (name : String) (sch : VSchema)
    (dtype : DType) (s : String) (check_exist : Bool)
    (hsch : pyGet schemas name = some sch)
    (hfld : pyGet fields name = some dtype)
    (hyaml : env.yamlList s = none)
    (hglob : env.glob s = []) :
    ((dtype = .dfile ∨ dtype = .ddir ∨ dtype = .dms) →
      ((sch.required = true ∧ check_exist = true →
          fileStep env check_exist true schemas fields name (.vstr s)
            = .error (.noFilesFound name s)) ∧
       (sch.required = false ∨ check_exist = false →
          fileStep env check_exist true schemas fields name (.vstr s)
            = .ok (.vstr "")))) ∧
    ((dtype = .dlistOf .dfile ∨ dtype = .dlistOf .ddir ∨ dtype = .dlistOf .dms) →
      ((sch.required = true ∧ check_exist = true →
          fileStep env check_exist true schemas fields name (.vstr s)
            = .error (.noFilesFound name s)) ∧
       (sch.required = false ∨ check_exist = false →
          fileStep env check_exist true schemas fields name (.vstr s)
            = .ok (.vlist [])))) := by
  constructor
  · intro hd
    rcases hd with rfl | rfl | rfl <;>
      exact ⟨fun hrc =>
          by simp [fileStep, hsch, hfld, hyaml, hglob, pvOptIsNone, pvIsErr,
                   pySorted, pyStr, hrc.1, hrc.2],
        fun hor => by
          rcases hor with hO | hO <;>
            simp [fileStep, hsch, hfld, hyaml, hglob, pvOptIsNone, pvIsErr,
                  pySorted, hO]⟩
  · intro hd
    rcases hd with rfl | rfl | rfl <;>
      exact ⟨fun hrc =>
          by simp [fileStep, hsch, hfld, hyaml, hglob, pvOptIsNone, pvIsErr,
                   pySorted, pyStr, hrc.1, hrc.2],
        fun hor => by
          rcases hor with hO | hO <;>
            simp [fileStep, hsch, hfld, hyaml, hglob, pvOptIsNone, pvIsErr,
                  pySorted, hO]⟩

/-- Witness for C8 at a concrete environment and schema. -/
theorem c8_empty_file_match_witness :
    fileStep envEmpty true true [("f", schFileReq)] [("f", .dfile)] "f"
        (.vstr "*.txt")
      = .error (.noFilesFound "f" "*.txt") :=
  ((c8_empty_file_match envEmpty [("f", schFileReq)] [("f", .dfile)] "f"
      schFileReq .dfile "*.txt" true rfl rfl rfl rfl).1
    (Or.inl rfl)).1 ⟨rfl, rfl⟩

/-!
### C10: Error markers and the later pipeline stages
-/

/-- C10: an `Error`-marked value is skipped by every further substitution
pass (the pass leaves the entry and the `self` mirror untouched), and the
file/glob pass returns it untouched without consulting the filesystem —
but it still enters the typed-record construction and the choice check:
a parameter whose substitution failed, against a schema with a non-empty
`choices` list not containing the error text, makes `validate_parameters`
fail with the invalid-choice error rather than returning the `Error`
value to the caller. -/
theorem c10_error_marker_flow :
    (∀ (base : List (String × NsVal)) (rest : List (String × PValue))
        (sel : List (String × NsVal)) (ch : Bool) (n e : String),
      substPass base ((n, .verr e) :: rest) sel ch
        = ((n, .verr e) :: (substPass base rest sel ch).1,
           (substPass base rest sel ch).2.1,
           (substPass base rest sel ch).2.2)) ∧
    (∀ (env : FsEnv) (ce eg : Bool) (schemas : List (String × VSchema))
        (fields : List (String × DType)) (n e : String),
      fileStep env ce eg schemas fields n (.verr e) = .ok (.verr e)) ∧
    (∀ (env : FsEnv) (base : List (String × NsVal)) (name e : String)
        (cs : List PValue) (cr ce eg : Bool),
      cs ≠ [] → pyMem (.verr e) cs = false →
      validate_parameters env [(name, .verr e)]
          [(name, ⟨"str", false, cs, none, false⟩)] (some base) [] true cr ce eg
        = .error (.invalidChoice name (.verr e))) := by
  refine ⟨?_, ?_, ?_⟩
  · intro base rest sel ch n e
    simp [substPass]
  · intro env ce eg schemas fields n e
    cases h : pyGet schemas n with
    | none => simp [fileStep, h]
    | some sch => simp [fileStep, h, pvOptIsNone, pvIsErr]
  · intro env base name e cs cr ce eg hne hmem
    obtain ⟨c, cs', rfl⟩ : ∃ c cs', cs = c :: cs' := by
      cases cs with
      | nil => exact absurd rfl hne
      | cons c cs' => exact ⟨c, cs', rfl⟩
    simp [validate_parameters, checkUnknowns, pyGet_cons, pvIsUnres,
      fillDefaults, pvOptIsNone, substApply, substLoop, substLoopAux,
      substPass, requiredMissing, afterRequired, buildFields, evalDtype,
      fileStage, fileStep, pvIsErr, pydanticStage, pydanticCheck,
      checkChoices, pyGet, hmem]

/-- Witness for C10 at a concrete failed-substitution value and choice
set. -/
theorem c10_error_marker_flow_witness :
    validate_parameters envEmpty [("p", .verr "ERR (key)")]
        [("p", ⟨"str", false, [.vstr "x", .vstr "y"], none, false⟩)]
        (some []) [] true true true true
      = .error (.invalidChoice "p" (.verr "ERR (key)")) :=
  c10_error_marker_flow.2.2 envEmpty [] "p" "ERR (key)"
    [.vstr "x", .vstr "y"] true true true (by simp) rfl

/-!
### C7: missing required parameter
-/

/-- Membership in a `pyJoin` gives a substring decomposition. -/
theorem pyJoin_mem_decomp (sep : String) :
    ∀ (l : List String) (x : String), x ∈ l →
      ∃ p q, pyJoin sep l = p ++ x ++ q := by
  intro l
  induction l with
  | nil => intro x h; exact absurd h (List.not_mem_nil x)
  | cons a t ih =>
    intro x h
    rcases List.mem_cons.mp h with rfl | ht
    · cases t with
      | nil => exact ⟨"", "", by simp [pyJoin]⟩
      | cons b t2 =>
        refine ⟨"", sep ++ pyJoin sep (b :: t2), ?_⟩
        simp [pyJoin, String.append_assoc]
    · cases t with
      | nil => exact absurd ht (List.not_mem_nil x)
      | cons b t2 =>
        obtain ⟨p, q, hpq⟩ := ih x ht
        refine ⟨a ++ sep ++ p, q, ?_⟩
        rw [pyJoin, hpq]
        simp [String.append_assoc]

/-- The rendered missing-parameters message names every member of the
missing list, between quotes. -/
theorem join_quote_mem_decomp (l : List String) (x : String) (h : x ∈ l) :
    ∃ p q, join_quote l = p ++ x ++ q := by
  obtain ⟨p, q, hpq⟩ := pyJoin_mem_decomp "\x27, \x27" l x h
  have hne : l.isEmpty = false := by
    cases l with
    | nil => exact absurd h (List.not_mem_nil x)
    | cons a t => rfl
  refine ⟨"\x27" ++ p, q ++ "\x27", ?_⟩
  rw [join_quote, hne]
  simp [hpq, String.append_assoc]

/-- `fillDefaults` leaves a key alone when its input `.get` is `None`,
the per-call defaults do not bind it, and every schema entry for it
declares no default. -/
theorem fillDefaults_none (defaults : List (String × PValue)) (name : String)
    (hdef : pyGet defaults name = none) :
    ∀ (schemas : List (String × VSchema)) (ins : List (String × PValue)),
      (∀ s : VSchema, (name, s) ∈ schemas → s.default = none) →
      pyGet ins name = none →
      pyGet (fillDefaults defaults schemas ins) name = none := by
  intro schemas
  induction schemas with
  | nil => intro ins _ h; exact h
  | cons p rest ih =>
    intro ins hs h
    rw [fillDefaults]
    by_cases hk : p.1 = name
    · have hsd : p.2.default = none := by
        apply hs p.2
        have : p = (name, p.2) := by
          cases p; simp_all
        rw [← this]
        exact List.mem_cons_self p rest
      rw [hk] at *
      simp only [h, pvOptIsNone, hdef, hsd]
      exact ih ins (fun s hmem => hs s (List.mem_cons_of_mem p hmem)) h
    · have hpres : ∀ v : PValue, pyGet (pyUpdate ins p.1 v) name = none := by
        intro v
        rw [pyGet_pyUpdate]
        simp [hk, h]
      by_cases hg : pvOptIsNone (pyGet ins p.1)
      · rw [if_pos hg]
        cases hd : pyGet defaults p.1 with
        | some d =>
          exact ih (pyUpdate ins p.1 d)
            (fun s hmem => hs s (List.mem_cons_of_mem p hmem)) (hpres d)
        | none =>
          cases hsd : p.2.default with
          | some d =>
            exact ih (pyUpdate ins p.1 d)
              (fun s hmem => hs s (List.mem_cons_of_mem p hmem)) (hpres d)
          | none =>
            exact ih ins (fun s hmem => hs s (List.mem_cons_of_mem p hmem)) h
      · rw [if_neg hg]
        exact ih ins (fun s hmem => hs s (List.mem_cons_of_mem p hmem)) h

/-- Step equation for `moveUnresolved` with the pair projections spelled
out. -/
theorem moveUnresolved_cons (p : String × PValue) (t : List (String × PValue)) :
    moveUnresolved (p :: t) =
      match p.2 with
      | .vstr s =>
        if hasSubstPattern s
        then ((moveUnresolved t).1, (p.1, .vunres s) :: (moveUnresolved t).2)
        else ((p.1, p.2) :: (moveUnresolved t).1, (moveUnresolved t).2)
      | _ => ((p.1, p.2) :: (moveUnresolved t).1, (moveUnresolved t).2) := by
  obtain ⟨k, v⟩ := p
  cases v <;> rfl

/-- The `subst is None` scan neither adds a key to the kept inputs nor
moves a key it never saw. -/
theorem moveUnresolved_none (name : String) :
    ∀ l : List (String × PValue), pyGet l name = none →
      pyGet (moveUnresolved l).1 name = none ∧
      ∀ p ∈ (moveUnresolved l).2, p.1 ≠ name := by
  intro l
  induction l with
  | nil => intro _; exact ⟨rfl, by intro p hp; exact absurd hp (List.not_mem_nil p)⟩
  | cons p t ih =>
    obtain ⟨k, v⟩ := p
    intro h
    have hpk : k ≠ name := by
      intro hk
      rw [pyGet_eq_none_iff] at h
      exact h (k, v) (List.mem_cons_self (k, v) t) hk
    have ht : pyGet t name = none := by
      rw [pyGet_eq_none_iff] at h ⊢
      intro q hq
      exact h q (List.mem_cons_of_mem (k, v) hq)
    obtain ⟨ih1, ih2⟩ := ih ht
    have hkeep : ∀ x : PValue,
        pyGet ((k, x) :: (moveUnresolved t).1) name = none := by
      intro x
      rw [pyGet_cons]
      simp [hpk, ih1]
    rw [moveUnresolved_cons]
    dsimp only
    have hmoved : ∀ s : String,
        ∀ q ∈ (k, PValue.vunres s) :: (moveUnresolved t).2, q.1 ≠ name := by
      intro s q hq
      rcases List.mem_cons.mp hq with rfl | hq2
      · exact hpk
      · exact ih2 q hq2
    cases v with
    | vstr s =>
      by_cases hsp : hasSubstPattern s
      · simp only [hsp, if_true]
        exact ⟨ih1, hmoved s⟩
      · simp only [hsp, if_false]
        exact ⟨hkeep _, ih2⟩
    | vnone => exact ⟨hkeep _, ih2⟩
    | vbool b => exact ⟨hkeep _, ih2⟩
    | vint n => exact ⟨hkeep _, ih2⟩
    | verr s => exact ⟨hkeep _, ih2⟩
    | vunres s => exact ⟨hkeep _, ih2⟩
    | vlist xs => exact ⟨hkeep _, ih2⟩

/-- C7: with `check_required` set, a schema entry that is required, ends
up with no value (not supplied, no per-call default, no schema default)
and is not an `Unresolved` marker makes `validate_parameters` raise the
missing-parameter `ParameterValidationError`, and the rendered message
names that parameter. -/
theorem c7_missing_required (env : FsEnv) (params : List (String × PValue))
    (schemas : List (String × VSchema)) (defaults : List (String × PValue))
    (name : String) (sch : VSchema) (ce eg : Bool)
    (hmem : (name, sch) ∈ schemas)
    (hreq : sch.required = true)
    (habs : pyGet params name = none)
    (hdef : pyGet defaults name = none)
    (hnodef : ∀ s : VSchema, (name, s) ∈ schemas → s.default = none)
    (hknown : ∀ p ∈ params, (pyGet schemas p.1).isSome) :
    ∃ missing,
      validate_parameters env params schemas none defaults true true ce eg
        = .error (.missingRequired missing) ∧
      name ∈ missing ∧
      ∃ p q, errMessage (.missingRequired missing) = p ++ name ++ q := by
  have hcu : checkUnknowns true params schemas = none := by
    rw [checkUnknowns, if_pos rfl]
    have : params.find? (fun p => (pyGet schemas p.1).isNone) = none := by
      rw [List.find?_eq_none]
      intro p hp hni
      have hsome := hknown p hp
      rw [Option.isNone_iff_eq_none] at hni
      rw [hni] at hsome
      exact Bool.noConfusion hsome
    rw [this]
    rfl
  have h0 : pyGet (params.filter (fun p => !pvIsUnres p.2)) name = none :=
    pyGet_filter_none params _ name habs
  have hu0 : pyGet (params.filter (fun p => pvIsUnres p.2)) name = none :=
    pyGet_filter_none params _ name habs
  have h1 : pyGet (fillDefaults defaults schemas
      (params.filter (fun p => !pvIsUnres p.2))) name = none :=
    fillDefaults_none defaults name hdef schemas _ hnodef h0
  obtain ⟨h2, h3⟩ := moveUnresolved_none name _ h1
  have h4 : pyGet ((moveUnresolved (fillDefaults defaults schemas
      (params.filter (fun p => !pvIsUnres p.2)))).2.foldl
        (fun u p => pyUpdate u p.1 p.2)
        (params.filter (fun p => pvIsUnres p.2))) name = none :=
    pyGet_foldl_pyUpdate_none name _ _ h3 hu0
  have hname : name ∈ requiredMissing schemas
      (moveUnresolved (fillDefaults defaults schemas
        (params.filter (fun p => !pvIsUnres p.2)))).1
      ((moveUnresolved (fillDefaults defaults schemas
        (params.filter (fun p => !pvIsUnres p.2)))).2.foldl
          (fun u p => pyUpdate u p.1 p.2)
          (params.filter (fun p => pvIsUnres p.2))) := by
    rw [requiredMissing, List.mem_filterMap]
    refine ⟨(name, sch), hmem, ?_⟩
    rw [if_pos]
    rw [hreq, h2, h4]
    rfl
  have hne : requiredMissing schemas
      (moveUnresolved (fillDefaults defaults schemas
        (params.filter (fun p => !pvIsUnres p.2)))).1
      ((moveUnresolved (fillDefaults defaults schemas
        (params.filter (fun p => !pvIsUnres p.2)))).2.foldl
          (fun u p => pyUpdate u p.1 p.2)
          (params.filter (fun p => pvIsUnres p.2))) ≠ [] :=
    List.ne_nil_of_mem hname
  refine ⟨requiredMissing schemas
      (moveUnresolved (fillDefaults defaults schemas
        (params.filter (fun p => !pvIsUnres p.2)))).1
      ((moveUnresolved (fillDefaults defaults schemas
        (params.filter (fun p => !pvIsUnres p.2)))).2.foldl
          (fun u p => pyUpdate u p.1 p.2)
          (params.filter (fun p => pvIsUnres p.2))), ?_, hname, ?_⟩
  · rw [validate_parameters, hcu]
    simp only [substApply, if_pos rfl]
    have hie : (requiredMissing schemas
        (moveUnresolved (fillDefaults defaults schemas
          (params.filter (fun p => !pvIsUnres p.2)))).1
        ((moveUnresolved (fillDefaults defaults schemas
          (params.filter (fun p => !pvIsUnres p.2)))).2.foldl
            (fun u p => pyUpdate u p.1 p.2)
            (params.filter (fun p => pvIsUnres p.2)))).isEmpty = false := by
      rw [List.isEmpty_eq_false]
      exact hne
    simp only [if_true]
    rw [hie]
    rfl
  · obtain ⟨p, q, hpq⟩ := join_quote_mem_decomp _ name hname
    refine ⟨"missing required parameters: " ++ p, q, ?_⟩
    rw [errMessage, hpq]
    simp [String.append_assoc]

/-- Witness for C7: a one-required-parameter schema with nothing
supplied. -/
theorem c7_missing_required_witness :
    ∃ missing,
      validate_parameters envEmpty [] [("p", schReq)] none [] true true true true
        = .error (.missingRequired missing) ∧
      "p" ∈ missing ∧
      ∃ p q, errMessage (.missingRequired missing) = p ++ "p" ++ q :=
  c7_missing_required envEmpty [] [("p", schReq)] [] "p" schReq true true
    (by simp) rfl rfl rfl
    (by
      intro s hs
      rw [List.mem_singleton, Prod.mk.injEq] at hs
      rw [hs.2]
      rfl)
    (by intro p hp; exact absurd hp (List.not_mem_nil p))

/-!
### C9: an explicit `None` value is treated like an omitted parameter
-/

/-- Collapse an explicit `None` value to an absent binding: the relation
under which Python's `d.get(k) is None` cannot tell the two apart. -/
def pvNorm : Option PValue → Option PValue
  | some .vnone => none
  | o => o

theorem pvOptIsNone_eq_norm_isNone (o : Option PValue) :
    pvOptIsNone o = (pvNorm o).isNone := by
  cases o with
  | none => rfl
  | some v => cases v <;> rfl

/-- `fillDefaults` does not touch a key no schema entry mentions. -/
theorem fillDefaults_preserves (defaults : List (String × PValue))
    (name : String) :
    ∀ (schemas : List (String × VSchema)) (ins : List (String × PValue)),
      (∀ p ∈ schemas, p.1 ≠ name) →
      pyGet (fillDefaults defaults schemas ins) name = pyGet ins name := by
  intro schemas
  induction schemas with
  | nil => intro ins _; rfl
  | cons p rest ih =>
    intro ins hs
    have hp : p.1 ≠ name := hs p (List.mem_cons_self p rest)
    have hrest : ∀ q ∈ rest, q.1 ≠ name :=
      fun q hq => hs q (List.mem_cons_of_mem p hq)
    rw [fillDefaults]
    have hupd : ∀ d : PValue, pyGet (pyUpdate ins p.1 d) name = pyGet ins name := by
      intro d
      rw [pyGet_pyUpdate, if_neg hp]
    by_cases hg : pvOptIsNone (pyGet ins p.1)
    · rw [if_pos hg]
      cases pyGet defaults p.1 with
      | some d => rw [ih (pyUpdate ins p.1 d) hrest, hupd d]
      | none =>
        cases p.2.default with
        | some d => rw [ih (pyUpdate ins p.1 d) hrest, hupd d]
        | none => exact ih ins hrest
    · rw [if_neg hg]
      exact ih ins hrest

/-- `fillDefaults` preserves pointwise agreement-up-to-`None` of two
input dicts: the branch taken per schema entry only depends on the
`.get(name) is None` view, and both sides are updated identically. -/
theorem fillDefaults_normAgree (defaults : List (String × PValue)) :
    ∀ (schemas : List (String × VSchema)) (ins1 ins2 : List (String × PValue)),
      (∀ k, pvNorm (pyGet ins1 k) = pvNorm (pyGet ins2 k)) →
      ∀ k, pvNorm (pyGet (fillDefaults defaults schemas ins1) k)
         = pvNorm (pyGet (fillDefaults defaults schemas ins2) k) := by
  intro schemas
  induction schemas with
  | nil => intro ins1 ins2 h k; exact h k
  | cons p rest ih =>
    intro ins1 ins2 h k
    rw [fillDefaults, fillDefaults]
    have hg : pvOptIsNone (pyGet ins1 p.1) = pvOptIsNone (pyGet ins2 p.1) := by
      rw [pvOptIsNone_eq_norm_isNone, pvOptIsNone_eq_norm_isNone, h p.1]
    have hupd : ∀ d : PValue,
        ∀ k2, pvNorm (pyGet (pyUpdate ins1 p.1 d) k2)
            = pvNorm (pyGet (pyUpdate ins2 p.1 d) k2) := by
      intro d k2
      rw [pyGet_pyUpdate, pyGet_pyUpdate]
      by_cases hk2 : p.1 = k2
      · rw [if_pos hk2, if_pos hk2]
      · rw [if_neg hk2, if_neg hk2]
        exact h k2
    by_cases hgl : pvOptIsNone (pyGet ins1 p.1)
    · have hgl2 : pvOptIsNone (pyGet ins2 p.1) = true := by rw [← hg]; exact hgl
      rw [if_pos hgl, if_pos hgl2]
      cases pyGet defaults p.1 with
      | some d => exact ih _ _ (hupd d) k
      | none =>
        cases p.2.default with
        | some d => exact ih _ _ (hupd d) k
        | none => exact ih ins1 ins2 h k
    · have hgl2 : ¬ pvOptIsNone (pyGet ins2 p.1) = true := by
        rw [← hg]; exact hgl
      rw [if_neg hgl, if_neg hgl2]
      exact ih ins1 ins2 h k

/-- Removing the (first) binding of `name` does not change filtered
lookups of other keys. -/
theorem pyGet_filter_eraseP_other (name k : String) (hk : k ≠ name)
    (q : String × PValue → Bool) :
    ∀ l : List (String × PValue),
      pyGet ((l.eraseP (fun p => p.1 == name)).filter q) k
        = pyGet (l.filter q) k := by
  intro l
  induction l with
  | nil => rfl
  | cons p t ih =>
    rw [List.eraseP_cons]
    by_cases hp : (p.1 == name)
    · simp only [hp, cond_true]
      have hpk : ¬ (p.1 == k) = true := by
        have hpn : p.1 = name := by simpa using hp
        rw [hpn]
        simp only [beq_iff_eq]
        exact fun h => hk h.symm
      by_cases hq : q p
      · rw [List.filter_cons, if_pos hq, pyGet_cons, if_neg hpk]
      · rw [List.filter_cons, if_neg hq]
    · have hp2 : (p.1 == name) = false := by simpa using hp
      simp only [hp2, cond_false]
      by_cases hq : q p
      · rw [List.filter_cons, if_pos hq, List.filter_cons, if_pos hq,
            pyGet_cons, pyGet_cons]
        by_cases hpk : (p.1 == k)
        · rw [if_pos hpk, if_pos hpk]
        · rw [if_neg hpk, if_neg hpk]
          exact ih
      · rw [List.filter_cons, if_neg hq, List.filter_cons, if_neg hq]
        exact ih

/-- With duplicate-free keys, removing the binding of `name` leaves no
binding of `name`. -/
theorem pyGet_eraseP_self_none (name : String) :
    ∀ l : List (String × PValue),
      (l.map Prod.fst).Nodup →
      pyGet (l.eraseP (fun p => p.1 == name)) name = none := by
  intro l
  induction l with
  | nil => intro _; rfl
  | cons p t ih =>
    intro hnd
    rw [List.map_cons, List.nodup_cons] at hnd
    rw [List.eraseP_cons]
    by_cases hp : (p.1 == name)
    · simp only [hp, cond_true]
      rw [pyGet_eq_none_iff]
      intro r hr hrk
      have hpn : p.1 = name := by simpa using hp
      apply hnd.1
      rw [hpn, ← hrk]
      exact List.mem_map.mpr ⟨r, hr, rfl⟩
    · have hp2 : (p.1 == name) = false := by simpa using hp
      simp only [hp2, cond_false]
      rw [pyGet_cons, if_neg hp]
      exact ih hnd.2

/-- The value the default-filling stage leaves behind for an entry whose
input `.get` is an explicit `None` (validate.py:121-127): `defaults[name]`
when the key is there, else the schema's own `default` when set, else the
`None` stays. -/
theorem fillDefaults_lookup_vnone (defaults : List (String × PValue))
    (name : String) :
    ∀ (schemas : List (String × VSchema)) (ins : List (String × PValue))
      (sch : VSchema),
      (schemas.map Prod.fst).Nodup →
      (name, sch) ∈ schemas →
      pyGet ins name = some .vnone →
      pyGet (fillDefaults defaults schemas ins) name =
        (match pyGet defaults name with
         | some d => some d
         | none =>
           match sch.default with
           | some d => some d
           | none => some .vnone) := by
  intro schemas
  induction schemas with
  | nil => intro ins sch _ hmem _; exact absurd hmem (List.not_mem_nil _)
  | cons p rest ih =>
    intro ins sch hnd hmem hins
    rw [List.map_cons, List.nodup_cons] at hnd
    obtain ⟨k0, s0⟩ := p
    rw [fillDefaults]
    by_cases hk : k0 = name
    · subst hk
      have hsch : s0 = sch := by
        rcases List.mem_cons.mp hmem with heq | hrest
        · exact (Prod.mk.injEq _ _ _ _ |>.mp heq.symm).2
        · exact absurd (List.mem_map_of_mem Prod.fst hrest) hnd.1
      subst hsch
      have hnotin : ∀ q ∈ rest, q.1 ≠ k0 := by
        intro q hq hqk
        apply hnd.1
        rw [← hqk]
        exact List.mem_map.mpr ⟨q, hq, rfl⟩
      rw [hins]
      simp only [pvOptIsNone, if_true]
      cases hd : pyGet defaults k0 with
      | some d =>
        rw [fillDefaults_preserves defaults k0 rest _ hnotin,
            pyGet_pyUpdate, if_pos rfl]
      | none =>
        cases hsd : s0.default with
        | some d =>
          rw [fillDefaults_preserves defaults k0 rest _ hnotin,
              pyGet_pyUpdate, if_pos rfl]
        | none =>
          rw [fillDefaults_preserves defaults k0 rest _ hnotin, hins]
    · have hrest : (name, sch) ∈ rest := by
        rcases List.mem_cons.mp hmem with heq | hr
        · exact absurd (Prod.mk.injEq _ _ _ _ |>.mp heq.symm).1 hk
        · exact hr
      have hupd : ∀ d : PValue,
          pyGet (pyUpdate ins k0 d) name = some .vnone := by
        intro d
        rw [pyGet_pyUpdate, if_neg hk]
        exact hins
      by_cases hg : pvOptIsNone (pyGet ins k0)
      · rw [if_pos hg]
        cases hd : pyGet defaults k0 with
        | some d => exact ih (pyUpdate ins k0 d) sch hnd.2 hrest (hupd d)
        | none =>
          cases hsd : s0.default with
          | some d => exact ih (pyUpdate ins k0 d) sch hnd.2 hrest (hupd d)
          | none => exact ih ins sch hnd.2 hrest hins
      · rw [if_neg hg]
        exact ih ins sch hnd.2 hrest hins

/-- C9: a schema entry whose supplied value is an explicit `None` is
treated exactly like an omitted one.  After the default-filling stage of
`validate_parameters` (validate.py:121-127, which runs before the
substitution and type-checking stages): (a) the entry's value is the
per-call default when its key is present, else the schema's own declared
default when set, else it stays `None`; and (b) the filled inputs agree
at every key — up to the `.get(k) is None` view that all later stages
use — with what the same stage produces when the `None` entry is omitted
from the parameters entirely. -/
theorem c9_none_like_omitted (params : List (String × PValue))
    (schemas : List (String × VSchema)) (defaults : List (String × PValue))
    (name : String) (sch : VSchema)
    (hndp : (params.map Prod.fst).Nodup)
    (hnds : (schemas.map Prod.fst).Nodup)
    (hmem : (name, sch) ∈ schemas)
    (hval : pyGet params name = some .vnone) :
    (pyGet (fillDefaults defaults schemas
        (params.filter (fun p => !pvIsUnres p.2))) name =
      (match pyGet defaults name with
       | some d => some d
       | none =>
         match sch.default with
         | some d => some d
         | none => some .vnone)) ∧
    (∀ k, pvNorm (pyGet (fillDefaults defaults schemas
        (params.filter (fun p => !pvIsUnres p.2))) k)
      = pvNorm (pyGet (fillDefaults defaults schemas
          ((params.eraseP (fun p => p.1 == name)).filter
            (fun p => !pvIsUnres p.2))) k)) := by
  have hins0 : pyGet (params.filter (fun p => !pvIsUnres p.2)) name
      = some .vnone :=
    pyGet_filter_of_pred params _ name .vnone hval rfl
  constructor
  · exact fillDefaults_lookup_vnone defaults name schemas _ sch hnds hmem hins0
  · apply fillDefaults_normAgree
    intro k
    by_cases hk : k = name
    · subst hk
      rw [hins0]
      have : pyGet ((params.eraseP (fun p => p.1 == k)).filter
          (fun p => !pvIsUnres p.2)) k = none :=
        pyGet_filter_none _ _ k (pyGet_eraseP_self_none k params hndp)
      rw [this]
      rfl
    · rw [pyGet_filter_eraseP_other name k hk]

/-- Witness for C9: `p=None` with both a call-level and a schema-level
default present takes the call-level default. -/
theorem c9_none_like_omitted_witness :
    pyGet (fillDefaults [("p", .vstr "calldefault")] [("p", schDef)]
        ([("p", PValue.vnone)].filter (fun p => !pvIsUnres p.2))) "p"
      = some (.vstr "calldefault") :=
  (c9_none_like_omitted [("p", .vnone)] [("p", schDef)]
      [("p", .vstr "calldefault")] "p" schDef
      (by simp) (by simp) (by simp) rfl).1

end Scabha
